import Mathlib

/- Verification development for the vidsub backend video pipeline.

   Shallow embedding of:
   - backend/app/utils/language_utils.py  (normalize_lang_code)
   - backend/app/core/video_service.py    (VideoService: model resolution,
     translation, transcription, subtitle layout, orchestration)

   Python strings are embedded as Lean String / List Char; Python floats on
   the layout and timing paths are embedded as exact rationals; machine-level
   exceptions are embedded as Except values; external collaborators (the
   HuggingFace repository probe, model loading, the Groq client, ffmpeg, the
   record store) are embedded as explicit oracle environments whose fields
   record the outcome the external world would produce. -/

/-- ASCII whitespace recognised by the Python str.strip method
    (space, tab, newline, carriage return, vertical tab, form feed). -/
def pySpaceChar (c : Char) : Bool :=
  decide (c.toNat = 32) || decide (c.toNat = 9) || decide (c.toNat = 10) ||
  decide (c.toNat = 13) || decide (c.toNat = 11) || decide (c.toNat = 12)

/-- Python str.lower on one character (ASCII range, the range exercised by
    language codes and names). -/
def lowerChar (c : Char) : Char :=
  if 65 ≤ c.toNat ∧ c.toNat ≤ 90 then Char.ofNat (c.toNat + 32) else c

/-- Python str.lower on a character list. -/
def lowerList (l : List Char) : List Char := l.map lowerChar

/-- Leading-whitespace removal (left half of str.strip). -/
def stripLeft (l : List Char) : List Char := l.dropWhile pySpaceChar

/-- Trailing-whitespace removal (right half of str.strip). -/
def stripRight : List Char → List Char
  | [] => []
  | c :: rest =>
    if (stripRight rest).isEmpty && pySpaceChar c then [] else c :: stripRight rest

/-- Python str.strip: drop leading and trailing whitespace. -/
def pyStrip (l : List Char) : List Char := stripRight (stripLeft l)

/-- Python str.strip on a Lean String. -/
def pyStripStr (s : String) : String := String.mk (pyStrip s.data)

/-- LANGUAGE_NAME_MAP from language_utils.py, as an association list over
    character lists (Python dict iteration order preserved). -/
def langMapL : List (List Char × List Char) :=
  [("english".data, "en".data), ("hebrew".data, "he".data),
   ("arabic".data, "ar".data), ("chinese".data, "zh".data),
   ("japanese".data, "ja".data), ("korean".data, "ko".data),
   ("french".data, "fr".data), ("spanish".data, "es".data),
   ("german".data, "de".data), ("russian".data, "ru".data),
   ("hindi".data, "hi".data)]

/-- Values view of LANGUAGE_NAME_MAP (Python dict .values()). -/
def langValsL : List (List Char) := langMapL.map (fun p => p.2)

/-- Tail of normalize_lang_code, applied once the input is known not to be a
    2-letter table value: if it contains a dash keep only the part before the
    first dash; then look the result up in the name table, passing it through
    unchanged when it is not a key. -/
def normTail (l : List Char) : List Char :=
  let p := if l.contains '-' then l.takeWhile (fun c => decide (c ≠ '-')) else l
  match langMapL.find? (fun q => decide (q.1 = p)) with
  | some q => q.2
  | none => p

/-- Core of normalize_lang_code from language_utils.py, over character lists:
    strip and lowercase; if the result is a known 2-letter code return it;
    otherwise apply the dash-split and table lookup of normTail. -/
def normAux (l0 : List Char) : List Char :=
  let l := lowerList (pyStrip l0)
  if l.length = 2 ∧ l ∈ langValsL then l else normTail l

/-- normalize_lang_code from language_utils.py. -/
def normalizeLangCode (lang : String) : String := String.mk (normAux lang.data)

/- ===== video_service.py: translation model resolution ===== -/

/-- Embedded Python exception values. -/
inductive Err where
  | valueError (msg : String)
  | serviceError (msg : String)
  | fileNotFound (msg : String)
deriving DecidableEq, Repr

/-- Message carried by an embedded exception. -/
def Err.message : Err → String
  | .valueError m => m
  | .serviceError m => m
  | .fileNotFound m => m

/-- Loaded translation model value as stored in self.translation_models:
    either one model+tokenizer pair (direct) or the two chained pairs of a
    pivot translation, identified by their repository names. -/
inductive ModelInfo where
  | direct (name : String)
  | pivot (srcToEn enToTgt : String)
deriving DecidableEq, Repr

/-- In-memory model cache self.translation_models (a Python dict, embedded
    as an insertion-ordered association list). -/
abbrev Cache := List (String × ModelInfo)

/-- Python dict membership and indexing on the cache. -/
def cacheLookup (c : Cache) (k : String) : Option ModelInfo :=
  (c.find? (fun q => decide (q.1 = k))).map (fun q => q.2)

/-- Python dict assignment d[k] = v on the cache. -/
def cacheInsert (c : Cache) (k : String) (v : ModelInfo) : Cache :=
  if (cacheLookup c k).isSome then
    c.map (fun q => if q.1 = k then (k, v) else q)
  else c ++ [(k, v)]

/-- Oracles for the external model repository: probe m is the result of
    _model_exists_on_hf(m), whose internal try/except absorbs timeouts and
    errors into false; loadOk m says whether from_pretrained on name m
    (model and tokenizer) succeeds, false embedding the exception that the
    source catches at each use site. -/
structure HfEnv where
  probe : String → Bool
  loadOk : String → Bool

/-- Direct-model loading loop of get_translation_model (lines 157-168):
    walk the variant list; for each name probe the repository and, when the
    probe succeeds, try to load; a load exception is caught and the loop
    continues with the next variant. Returns the loaded name, if any, and
    the list of names probed. -/
def tryDirect (env : HfEnv) : List String → Option String × List String
  | [] => (none, [])
  | m :: rest =>
    if env.probe m && env.loadOk m then (some m, [m])
    else
      match tryDirect env rest with
      | (r, ps) => (r, m :: ps)

/-- Candidate direct-model names for a language pair (lines 143-147). -/
def modelVariants (sourceLang targetLang : String) : List String :=
  ["Helsinki-NLP/opus-mt-" ++ sourceLang ++ "-" ++ targetLang,
   "Helsinki-NLP/opus-mt-tc-big-" ++ sourceLang ++ "-" ++ targetLang,
   "Helsinki-NLP/opus-mt-" ++ sourceLang ++ "-" ++ targetLang ++ "-big"]

/-- get_translation_model from video_service.py (lines 132-200). Returns
    the resolved model value (none embeds the Python None sentinel meaning
    use the Groq remote fallback), the updated cache, and the list of
    repository probes made during the call. Every exception raised by a
    probe or load is caught by the source, so the embedding is total. -/
def getTranslationModel (env : HfEnv) (cache : Cache) (sourceLang0 targetLang0 : String) :
    Option ModelInfo × Cache × List String :=
  let sourceLang := normalizeLangCode sourceLang0
  let targetLang := normalizeLangCode targetLang0
  if sourceLang = "ar" ∧ targetLang = "en" then (none, cache, [])
  else
    let variants := modelVariants sourceLang targetLang
    match variants.find? (fun m => (cacheLookup cache m).isSome) with
    | some m => (cacheLookup cache m, cache, [])
    | none =>
      match tryDirect env variants with
      | (some m, ps) => (some (.direct m), cacheInsert cache m (.direct m), ps)
      | (none, ps) =>
        if sourceLang ≠ "en" then
          let srcToEn := "Helsinki-NLP/opus-mt-" ++ sourceLang ++ "-en"
          let enToTgt := "Helsinki-NLP/opus-mt-en-" ++ targetLang
          if env.probe srcToEn then
            if env.probe enToTgt then
              if env.loadOk srcToEn && env.loadOk enToTgt then
                (some (.pivot srcToEn enToTgt),
                 cacheInsert cache (sourceLang ++ "-" ++ targetLang ++ "_pivot")
                   (.pivot srcToEn enToTgt),
                 ps ++ [srcToEn, enToTgt])
              else (none, cache, ps ++ [srcToEn, enToTgt])
            else (none, cache, ps ++ [srcToEn, enToTgt])
          else (none, cache, ps ++ [srcToEn])
        else (none, cache, ps)

/-- Translation strategy as resolved for a language pair (the resolve
    contract of spec section 4.2, realized by the dispatch in translate_text
    over get_translation_model). -/
inductive Strategy where
  | noop
  | direct (name : String)
  | pivot (srcToEn enToTgt : String)
  | remoteFallback
deriving DecidableEq, Repr

/-- Strategy resolution: the dispatch performed by translate_text
    (lines 249-269) on top of get_translation_model. A same-language pair
    short-circuits translation (noop); Arabic-to-English goes straight to
    the remote fallback; a python-None model resolution means remote
    fallback. Also returns the updated cache and the probes made. -/
def resolveStrategy (env : HfEnv) (cache : Cache) (sourceLang targetLang : String) :
    Strategy × Cache × List String :=
  let s := normalizeLangCode sourceLang
  let t := normalizeLangCode targetLang
  if s = t then (.noop, cache, [])
  else if s = "ar" ∧ t = "en" then (.remoteFallback, cache, [])
  else
    match getTranslationModel env cache s t with
    | (none, c, ps) => (.remoteFallback, c, ps)
    | (some (.direct m), c, ps) => (.direct m, c, ps)
    | (some (.pivot a b), c, ps) => (.pivot a b, c, ps)

/- ===== video_service.py: Groq fallback and per-segment translation ===== -/

/-- Oracles for the Groq client as used by ensure_initialized and
    _translate_with_groq_fallback: whether self.client is already set, the
    api-key lookup result, whether client construction succeeds, and the
    outcome of a chat-completion call on a given system prompt and user
    text (none embeds an exception raised during the call or while reading
    the response content). -/
structure GroqEnv where
  clientSet : Bool
  apiKey : Option String
  clientInitOk : Bool
  remote : String → String → Option String

/-- ensure_initialized from video_service.py (lines 50-63): raises when no
    api key is found, or re-raises when the client constructor throws. -/
def ensureInitialized (e : GroqEnv) : Except Err Unit :=
  if e.clientSet then .ok ()
  else
    match e.apiKey with
    | none => .error (.valueError "GROQ_API_KEY not found")
    | some _ => if e.clientInitOk then .ok () else .error (.serviceError "client init failed")

/-- System prompt chosen by _translate_with_groq_fallback (lines 209-221). -/
def groqSystemPrompt (sourceLang targetLang : String) : String :=
  if sourceLang = "ar" then
    "You are an expert Arabic translator. Translate the following text to English, " ++
    "maintaining proper context and nuance. Preserve any technical terms, names, " ++
    "and numbers exactly as they appear. Provide a natural, fluent translation " ++
    "that captures the original meaning accurately."
  else
    "Translate the following text from " ++ sourceLang ++ " to " ++ targetLang ++ ". " ++
    "Maintain exact meaning, preserve numbers and proper nouns."

/-- _translate_with_groq_fallback from video_service.py (lines 202-247):
    ensure_initialized runs outside the try block, so its exceptions
    propagate; any error in the remote call itself is caught and the
    original text returned; a successful response is returned stripped. -/
def translateWithGroqFallback (e : GroqEnv) (text sourceLang targetLang : String) :
    Except Err String :=
  match ensureInitialized e with
  | .error err => .error err
  | .ok _ =>
    match e.remote (groqSystemPrompt sourceLang targetLang) text with
    | some resp => .ok (pyStripStr resp)
    | none => .ok text

/-- Oracles for translate_text: the repository environment, the per-model
    generation oracle (tokenize, generate, decode on a model name and an
    input text; none embeds an exception), and the Groq environment. -/
structure TransEnv where
  hf : HfEnv
  gen : String → String → Option String
  groq : GroqEnv

/-- translate_text from video_service.py (lines 249-308): normalize both
    codes; a same-language pair returns the text unchanged; Arabic-to-
    English goes straight to the Groq fallback; otherwise resolve a model
    and apply it, any application error falling back to Groq (whose own
    initialization failure can propagate). A pivot model chains two
    generations. Returns the outcome together with the updated cache. -/
def translateText (e : TransEnv) (cache : Cache) (text sourceLang targetLang : String) :
    Except Err String × Cache :=
  let s := normalizeLangCode sourceLang
  let t := normalizeLangCode targetLang
  if s = t then (.ok text, cache)
  else if s = "ar" ∧ t = "en" then (translateWithGroqFallback e.groq text s t, cache)
  else
    match getTranslationModel e.hf cache s t with
    | (none, c, _) => (translateWithGroqFallback e.groq text s t, c)
    | (some (.direct m), c, _) =>
      match e.gen m text with
      | some out => (.ok out, c)
      | none => (translateWithGroqFallback e.groq text s t, c)
    | (some (.pivot m1 m2), c, _) =>
      match e.gen m1 text with
      | some pivotText =>
        match e.gen m2 pivotText with
        | some out => (.ok out, c)
        | none => (translateWithGroqFallback e.groq text s t, c)
      | none => (translateWithGroqFallback e.groq text s t, c)

/-- Timed subtitle segment. Start and end offsets in seconds are embedded
    as exact rationals; the field called end in the source is named stop
    here because end is a Lean keyword. -/
structure Segment where
  start : ℚ
  stop : ℚ
  text : String
deriving DecidableEq, Repr

/-- _process_subtitles from video_service.py (lines 417-456): translate
    each segment in order, appending a new segment with the same timing and
    the translated text; when translating a segment raises, keep the
    original segment in its place instead of aborting the batch. -/
def processSubtitles (e : TransEnv) (sourceLang targetLang : String) :
    Cache → List Segment → List Segment × Cache
  | cache, [] => ([], cache)
  | cache, sub :: rest =>
    match translateText e cache sub.text sourceLang targetLang with
    | (.ok translated, c) =>
      match processSubtitles e sourceLang targetLang c rest with
      | (others, cFinal) =>
        ({start := sub.start, stop := sub.stop, text := translated} :: others, cFinal)
    | (.error _, c) =>
      match processSubtitles e sourceLang targetLang c rest with
      | (others, cFinal) => (sub :: others, cFinal)

/-- Repository world in which only the two French/German pivot models
    exist and every load succeeds (used to exercise the pivot path). -/
def pivotOnlyEnv : HfEnv :=
  { probe := fun m =>
      decide (m = "Helsinki-NLP/opus-mt-fr-en") || decide (m = "Helsinki-NLP/opus-mt-en-de"),
    loadOk := fun _ => true }

/-- Repository world in which only the plain French-to-German direct model
    exists and every load succeeds (used to exercise the direct path). -/
def directOnlyEnv : HfEnv :=
  { probe := fun m => decide (m = "Helsinki-NLP/opus-mt-fr-de"),
    loadOk := fun _ => true }

/-- Cache state after the French-to-German direct model has been loaded. -/
def directOnlyCache : Cache :=
  [("Helsinki-NLP/opus-mt-fr-de", ModelInfo.direct "Helsinki-NLP/opus-mt-fr-de")]

/-- Translation world in which no model exists, generation always throws
    and the Groq client cannot be initialized (no api key): every
    translation attempt raises. -/
def failingTransEnv : TransEnv :=
  { hf := { probe := fun _ => false, loadOk := fun _ => false },
    gen := fun _ _ => none,
    groq := { clientSet := false, apiKey := none, clientInitOk := false,
              remote := fun _ _ => none } }

/-- Groq world with an already-initialized client whose remote call answers
    with a padded string. -/
def workingGroqEnv : GroqEnv :=
  { clientSet := true, apiKey := none, clientInitOk := true,
    remote := fun _ _ => some "  hi  " }

/-- Groq world with an already-initialized client whose remote call always
    throws. -/
def downRemoteGroqEnv : GroqEnv :=
  { clientSet := true, apiKey := none, clientInitOk := true,
    remote := fun _ _ => none }

/- ===== video_service.py: transcription stage ===== -/

/-- Raw segment of the external speech response. Each field may be missing;
    the numeric fields are embedded as exact rationals, matching the float
    conversion applied by the source to present values. -/
structure RawSegment where
  start? : Option ℚ
  stop? : Option ℚ
  text? : Option String
deriving DecidableEq, Repr

/-- Raw response of the external speech service. -/
structure RawResponse where
  language? : Option String
  segments : List RawSegment
deriving DecidableEq, Repr

/-- Outcomes of the two external speech calls of _transcribe_with_groq:
    none embeds an exception (network, auth or service error, or a failure
    to open the audio file). -/
structure SpeechEnv where
  translationsResp : Option RawResponse
  transcriptionsResp : Option RawResponse

/-- Result shape of _transcribe_with_groq. -/
structure TranscriptionResult where
  segments : List Segment
  detectedLanguage : String
  sampleText : String
deriving DecidableEq, Repr

/-- Call section of _transcribe_with_groq (lines 338-364): when the target
    is English and the source is not, try the translations API first and
    fall back to the transcriptions API when it raises; otherwise use the
    transcriptions API directly. None means the attempt, fallback included,
    raised. -/
def effectiveResponse (env : SpeechEnv) (sourceLang targetLang : String) :
    Option RawResponse :=
  if targetLang = "en" ∧ sourceLang ≠ "en" then
    match env.translationsResp with
    | some r => some r
    | none => env.transcriptionsResp
  else env.transcriptionsResp

/-- Per-segment validation loop of _transcribe_with_groq (lines 385-400):
    keep a raw segment only when it has all of start, end and text, its end
    exceeds its start and its stripped text is non-empty; kept segments are
    emitted with stripped text. -/
def validSegments : List RawSegment → List Segment
  | [] => []
  | g :: rest =>
    match g.start?, g.stop?, g.text? with
    | some st, some en, some tx =>
      if en > st ∧ pyStripStr tx ≠ "" then
        {start := st, stop := en, text := pyStripStr tx} :: validSegments rest
      else validSegments rest
    | _, _, _ => validSegments rest

/-- _transcribe_with_groq from video_service.py (lines 332-415): never
    raises; a failed external call yields an empty-segments result carrying
    the source-language argument as detected language; otherwise the
    reported language is normalized and the response segments filtered and
    converted. -/
def transcribeWithGroq (env : SpeechEnv) (sourceLang targetLang : String) :
    TranscriptionResult :=
  match effectiveResponse env sourceLang targetLang with
  | none => {segments := [], detectedLanguage := sourceLang, sampleText := ""}
  | some resp =>
    {segments := validSegments resp.segments,
     detectedLanguage := normalizeLangCode (resp.language?.getD sourceLang),
     sampleText :=
       match resp.segments with
       | [] => ""
       | g :: _ => g.text?.getD ""}

/-- Sample raw speech response with one valid and two malformed segments
    (zero-length timing; missing start). -/
def sampleRawResponse : RawResponse :=
  { language? := some "english",
    segments :=
      [{start? := some 0, stop? := some 2, text? := some " Hola "},
       {start? := some 2, stop? := some 2, text? := some "x"},
       {start? := none, stop? := some 3, text? := some "y"}] }

/-- Speech world whose transcription call answers with sampleRawResponse. -/
def sampleSpeechEnv : SpeechEnv :=
  { translationsResp := none, transcriptionsResp := some sampleRawResponse }

/-- Speech world in which every call raises. -/
def downSpeechEnv : SpeechEnv :=
  { translationsResp := none, transcriptionsResp := none }

/- ===== video_service.py: subtitle layout engine ===== -/

/-- Python int() on a rational: truncation toward zero. -/
def pyInt (q : ℚ) : ℤ := if 0 ≤ q then ⌊q⌋ else -⌊-q⌋

/-- Python truthiness of the optional font-size argument (None and 0 are
    both falsy at the "if user_font_size:" checks). -/
def pyTruthy (o : Option ℤ) : Bool :=
  match o with
  | none => false
  | some n => decide (n ≠ 0)

/-- _calculate_subtitle_properties from video_service.py (lines 615-675),
    with Python floats embedded as exact rationals. A zero height is the
    one computation error (division by zero), caught by the source and
    answered with the fixed default tuple. Result order: font size, max
    lines, vertical margin, line height, horizontal margin, chars per
    line. -/
def calculateSubtitleProperties (width height : ℤ) (userFontSize : Option ℤ) :
    ℤ × ℤ × ℤ × ℤ × ℤ × ℤ :=
  if height = 0 then (24, 2, 20, 28, 50, 40)
  else
    if (width : ℚ) / (height : ℚ) < 3 / 5 then
      let hMargin : ℚ := max ((width : ℚ) * (6 / 100)) 15
      let vMargin : ℚ := (height : ℚ) * (8 / 100)
      let baseSize : ℚ :=
        if pyTruthy userFontSize then
          min (max ((userFontSize.getD 0 : ℚ)) 12) 20
        else
          min (max ((min (width : ℚ) (height : ℚ)) * (38 / 1000) * (92 / 100)) 14) 20
      let lineSpacing : ℤ := pyInt (baseSize * (1 / 4))
      (pyInt baseSize, 1, pyInt vMargin, pyInt (baseSize + (lineSpacing : ℚ)),
       pyInt hMargin, 42)
    else
      let baseDimension : ℚ := (height : ℚ) * (42 / 1000)
      let hMargin : ℚ := max ((width : ℚ) * (12 / 100)) 50
      let baseSize : ℚ :=
        if pyTruthy userFontSize then
          min (max ((userFontSize.getD 0 : ℚ)) 22) 44
        else
          min (max baseDimension 22) 44
      let lineSpacing : ℤ := pyInt (baseSize * (3 / 10))
      let vMargin : ℚ := (height : ℚ) * (6 / 100)
      let charPerLine : ℤ :=
        min (max (pyInt (((width : ℚ) * (82 / 100)) / (baseSize * (6 / 10)))) 20) 50
      (pyInt baseSize, 2, pyInt vMargin, pyInt (baseSize + (lineSpacing : ℚ)),
       pyInt hMargin, charPerLine)

/- ===== video_service.py: pipeline orchestrator ===== -/

/-- Progress event built by _send_progress (lines 458-472): the status
    string is derived from the percent (-1 failed, 100 completed, otherwise
    processing). Optional payloads are not modeled. -/
structure ProgressEvent where
  step : String
  progress : Int
  status : String
deriving DecidableEq, Repr

/-- _send_progress from video_service.py. -/
def sendProgress (step : String) (progress : Int) : ProgressEvent :=
  {step := step, progress := progress,
   status := if progress = -1 then "failed"
             else if progress = 100 then "completed" else "processing"}

/-- Oracles for one orchestrator run: the resolved video id (the source
    helper validate_and_get_video_id never raises), the segments already
    attached to the record, the audio-extraction outcome, whether the temp
    audio file still exists at cleanup time and whether its removal
    succeeds, the detected language (detect_language never raises), the
    speech and translation worlds with the process cache, the
    subtitle-burn outcome and whether the output file exists afterwards.
    Record-store writes are assumed not to raise. -/
structure OrchEnv where
  videoId : String
  existingSegments : List Segment
  extractAudio : Except Err String
  audioFileExists : Bool
  removeOk : Bool
  detectedLang : String
  speech : SpeechEnv
  trans : TransEnv
  cache : Cache
  addSubtitles : Except Err String
  outputExists : Bool

/-- Observable trace of one fully-consumed orchestrator run: the progress
    events yielded in order, the update_status writes (id, status, error
    message, progress), the update_output_path writes (id, path, segments),
    the final outcome of the generator (ok or the re-raised exception), and
    whether the temp audio file was removed by the finally block. -/
structure RunTrace where
  events : List ProgressEvent
  statusUpdates : List (String × String × String × Int)
  outputUpdates : List (String × String × List Segment)
  outcome : Except Err Unit
  audioRemoved : Bool

/-- Render tail of process_video_stream (lines 545-564): the subtitle
    events, the burn call, the output-file existence check, the record
    write and the final 100 percent event. Returns events, record writes,
    outcome, and whether the temp audio file had been created. -/
def renderTail (env : OrchEnv) (subs : List Segment)
    (events : List ProgressEvent) (audioCreated : Bool) :
    List ProgressEvent × List (String × String × List Segment) × Except Err Unit × Bool :=
  let e1 := events ++ [sendProgress "Generating subtitles" 85,
                       sendProgress "Adding subtitles" 90]
  match env.addSubtitles with
  | .error err => (e1, [], .error err, audioCreated)
  | .ok outputPath =>
    if env.outputExists then
      (e1 ++ [sendProgress "Finalizing" 100],
       [(env.videoId, outputPath, subs)], .ok (), audioCreated)
    else
      (e1, [], .error (.fileNotFound "Output video not generated"), audioCreated)

/-- Try-block body of process_video_stream (lines 480-564), driven to
    exhaustion: initialization, the existing-segments short-circuit, audio
    extraction, language detection, transcription with the zero-segments
    check, conditional translation, and the render tail. -/
def runPipelineBody (env : OrchEnv) (targetLang : String) :
    List ProgressEvent × List (String × String × List Segment) × Except Err Unit × Bool :=
  let e0 := [sendProgress "Initializing" 0]
  match ensureInitialized env.trans.groq with
  | .error err => (e0, [], .error err, false)
  | .ok _ =>
    if env.existingSegments ≠ [] then
      renderTail env env.existingSegments
        (e0 ++ [sendProgress "Translating" 80]) false
    else
      let e1 := e0 ++ [sendProgress "Extracting audio" 10]
      match env.extractAudio with
      | .error err => (e1, [], .error err, false)
      | .ok _ =>
        let e2 := e1 ++ [sendProgress "Extracting audio" 30,
                         sendProgress "Detecting language" 35,
                         sendProgress "Detecting language" 40,
                         sendProgress "Transcribing" 45]
        let tr := transcribeWithGroq env.speech env.detectedLang targetLang
        if tr.segments = [] then
          (e2, [], .error (.valueError "No valid subtitles generated"), true)
        else
          let e3 := e2 ++ [sendProgress "Transcribing" 60]
          if tr.detectedLanguage ≠ targetLang then
            renderTail env
              (processSubtitles env.trans tr.detectedLanguage targetLang
                env.cache tr.segments).1
              (e3 ++ [sendProgress "Translating" 65, sendProgress "Translating" 80]) true
          else
            renderTail env tr.segments e3 true

/-- process_video_stream from video_service.py (lines 474-581), as the
    trace of a fully-consumed run: on a body exception the except block
    persists a failed status (when the video id is truthy) and yields the
    terminal -1 event before re-raising; the finally block removes the temp
    audio file whenever one was created and still exists. -/
def processVideoStream (env : OrchEnv) (targetLang : String) : RunTrace :=
  match runPipelineBody env targetLang with
  | (events, outs, .ok _, audioCreated) =>
    {events := events, statusUpdates := [], outputUpdates := outs, outcome := .ok (),
     audioRemoved := audioCreated && env.audioFileExists && env.removeOk}
  | (events, outs, .error err, audioCreated) =>
    {events := events ++ [sendProgress "Error" (-1)],
     statusUpdates :=
       if env.videoId ≠ "" then [(env.videoId, "failed", err.message, -1)] else [],
     outputUpdates := outs,
     outcome := .error err,
     audioRemoved := audioCreated && env.audioFileExists && env.removeOk}

/-- Translation world with no local models but a working Groq client. -/
def idleTransEnv : TransEnv :=
  { hf := { probe := fun _ => false, loadOk := fun _ => false },
    gen := fun _ _ => none,
    groq := workingGroqEnv }

/-- Orchestrator world in which the speech service is down, so
    transcription yields zero segments. -/
def zeroSegOrchEnv : OrchEnv :=
  { videoId := "65b000000000000000000001",
    existingSegments := [],
    extractAudio := .ok "audio.wav",
    audioFileExists := true,
    removeOk := true,
    detectedLang := "fr",
    speech := downSpeechEnv,
    trans := idleTransEnv,
    cache := [],
    addSubtitles := .ok "out.mp4",
    outputExists := true }

/- ===== end of definitions; theorems below ===== -/

example : normalizeLangCode "en-US" = "en" := by decide
example : normalizeLangCode "EN" = "en" := by decide
example : normalizeLangCode "Arabic" = "ar" := by decide
example : normalizeLangCode "xx" = "xx" := by decide
example : normalizeLangCode "a -b" = "a " := by decide
example : normalizeLangCode "a " = "a" := by decide

/-- Characters are determined by their code points. -/
theorem char_eq_of_toNat {c d : Char} (h : c.toNat = d.toNat) : c = d :=
  Char.ext (UInt32.ext h)

/-- Code point of the lowercased character. -/
theorem lowerChar_toNat (c : Char) :
    (lowerChar c).toNat =
      if 65 ≤ c.toNat ∧ c.toNat ≤ 90 then c.toNat + 32 else c.toNat := by
  unfold lowerChar
  split
  case isTrue h =>
    have hv : (c.toNat + 32).isValidChar := Or.inl (by omega)
    unfold Char.ofNat
    rw [dif_pos hv]
    unfold Char.ofNatAux
    simp [Char.toNat, UInt32.toNat]
  case isFalse h => rfl

/-- Lowercasing a character is idempotent. -/
theorem lowerChar_lowerChar (c : Char) : lowerChar (lowerChar c) = lowerChar c := by
  apply char_eq_of_toNat
  rw [lowerChar_toNat (lowerChar c), lowerChar_toNat c]
  split_ifs <;> omega

/-- Lowercasing preserves whitespace-ness. -/
theorem pySpaceChar_lowerChar (c : Char) : pySpaceChar (lowerChar c) = pySpaceChar c := by
  have h := lowerChar_toNat c
  rw [Bool.eq_iff_iff]
  unfold pySpaceChar
  rw [h]
  split_ifs with hc
  · simp only [Bool.or_eq_true, decide_eq_true_eq]
    omega
  · exact Iff.rfl

/-- Lowercasing a character produces a dash exactly when it was a dash. -/
theorem lowerChar_eq_dash (c : Char) : lowerChar c = '-' ↔ c = '-' := by
  constructor
  · intro h
    have ht : (lowerChar c).toNat = 45 := by rw [h]; rfl
    rw [lowerChar_toNat c] at ht
    apply char_eq_of_toNat
    have h45 : ('-').toNat = 45 := rfl
    rw [h45]
    split_ifs at ht with hc <;> omega
  · intro h
    subst h
    decide

/-- Dropping a prefix with the same predicate twice is the same as once. -/
theorem dropWhile_self (p : α → Bool) (l : List α) :
    (l.dropWhile p).dropWhile p = l.dropWhile p := by
  induction l with
  | nil => rfl
  | cons c rest ih =>
    by_cases h : p c
    · simp [List.dropWhile_cons, h, ih]
    · simp [List.dropWhile_cons, h]

/-- Unfolding equation for stripRight on a cons cell. -/
theorem stripRight_cons (c : Char) (rest : List Char) :
    stripRight (c :: rest) =
      if (stripRight rest).isEmpty && pySpaceChar c then [] else c :: stripRight rest := by
  rfl

/-- stripRight is idempotent. -/
theorem stripRight_stripRight (l : List Char) :
    stripRight (stripRight l) = stripRight l := by
  induction l with
  | nil => rfl
  | cons c rest ih =>
    by_cases h : ((stripRight rest).isEmpty && pySpaceChar c) = true
    · rw [stripRight_cons, if_pos h]; rfl
    · rw [stripRight_cons, if_neg h, stripRight_cons, ih, if_neg h]

/-- stripLeft and stripRight commute. -/
theorem stripLeft_stripRight (l : List Char) :
    stripLeft (stripRight l) = stripRight (stripLeft l) := by
  induction l with
  | nil => rfl
  | cons c rest ih =>
    by_cases hws : pySpaceChar c = true
    · have hsl : stripLeft (c :: rest) = stripLeft rest := by
        unfold stripLeft; rw [List.dropWhile_cons, if_pos hws]
      by_cases he : (stripRight rest).isEmpty = true
      · have hnil : stripRight rest = [] := List.isEmpty_iff.mp he
        have hr : stripRight (stripLeft rest) = [] := by rw [← ih, hnil]; rfl
        rw [stripRight_cons, if_pos (by rw [he, hws]; rfl), hsl, hr]
        rfl
      · have hcond : ((stripRight rest).isEmpty && pySpaceChar c) = false := by
          have he2 : (stripRight rest).isEmpty = false := by simpa using he
          rw [he2]; rfl
        rw [stripRight_cons, if_neg (by rw [hcond]; exact Bool.false_ne_true), hsl]
        unfold stripLeft
        rw [List.dropWhile_cons, if_pos hws]
        exact ih
    · have hws2 : pySpaceChar c = false := by simpa using hws
      have hcond : ((stripRight rest).isEmpty && pySpaceChar c) = false := by
        rw [hws2, Bool.and_false]
      have hsl : stripLeft (c :: rest) = c :: rest := by
        unfold stripLeft; rw [List.dropWhile_cons, if_neg (by rw [hws2]; exact Bool.false_ne_true)]
      rw [stripRight_cons, if_neg (by rw [hcond]; exact Bool.false_ne_true), hsl]
      unfold stripLeft
      rw [List.dropWhile_cons, if_neg (by rw [hws2]; exact Bool.false_ne_true)]
      rw [stripRight_cons, if_neg (by rw [hcond]; exact Bool.false_ne_true)]

/-- pyStrip is idempotent. -/
theorem pyStrip_pyStrip (l : List Char) : pyStrip (pyStrip l) = pyStrip l := by
  unfold pyStrip
  unfold stripLeft
  rw [show (stripRight (List.dropWhile pySpaceChar l)).dropWhile pySpaceChar =
        stripLeft (stripRight (List.dropWhile pySpaceChar l)) from rfl]
  rw [stripLeft_stripRight]
  unfold stripLeft
  rw [dropWhile_self, stripRight_stripRight]

/-- stripLeft commutes with lowercasing. -/
theorem stripLeft_lowerList (l : List Char) :
    stripLeft (lowerList l) = lowerList (stripLeft l) := by
  unfold stripLeft lowerList
  rw [List.dropWhile_map]
  have : (pySpaceChar ∘ lowerChar) = pySpaceChar := by
    funext c; exact pySpaceChar_lowerChar c
  rw [this]

/-- stripRight commutes with lowercasing. -/
theorem stripRight_lowerList (l : List Char) :
    stripRight (lowerList l) = lowerList (stripRight l) := by
  induction l with
  | nil => rfl
  | cons c rest ih =>
    have hmap : lowerList (c :: rest) = lowerChar c :: lowerList rest := rfl
    rw [hmap, stripRight_cons, stripRight_cons, ih, pySpaceChar_lowerChar]
    have hemp : (lowerList (stripRight rest)).isEmpty = (stripRight rest).isEmpty := by
      cases stripRight rest <;> rfl
    rw [hemp]
    by_cases h : ((stripRight rest).isEmpty && pySpaceChar c) = true
    · rw [if_pos h, if_pos h]; rfl
    · rw [if_neg h, if_neg h]; rfl

/-- pyStrip commutes with lowercasing. -/
theorem pyStrip_lowerList (l : List Char) :
    pyStrip (lowerList l) = lowerList (pyStrip l) := by
  unfold pyStrip
  rw [stripLeft_lowerList, stripRight_lowerList]

/-- lowerList is idempotent. -/
theorem lowerList_lowerList (l : List Char) : lowerList (lowerList l) = lowerList l := by
  unfold lowerList
  rw [List.map_map]
  have : (lowerChar ∘ lowerChar) = lowerChar := by
    funext c; exact lowerChar_lowerChar c
  rw [this]

/-- The strip-then-lower combination used by normalize_lang_code is idempotent. -/
theorem lowerStrip_idem (l : List Char) :
    lowerList (pyStrip (lowerList (pyStrip l))) = lowerList (pyStrip l) := by
  rw [pyStrip_lowerList, lowerList_lowerList, pyStrip_pyStrip]

/-- The part kept before the first dash contains no dash. -/
theorem takeWhile_dash_not_contains (l : List Char) :
    ((l.takeWhile (fun c => decide (c ≠ '-'))).contains '-') = false := by
  by_contra h
  have hmem : '-' ∈ l.takeWhile (fun c => decide (c ≠ '-')) := by
    have := Bool.of_not_eq_false h
    exact List.elem_iff.mp this
  have := List.mem_takeWhile_imp hmem
  simp at this

/-- Taking up to the first dash of a dash-free list keeps the whole list. -/
theorem takeWhile_dash_of_not_contains (l : List Char) (h : l.contains '-' = false) :
    l.takeWhile (fun c => decide (c ≠ '-')) = l := by
  rw [List.takeWhile_eq_self_iff]
  intro x hx
  have hne : x ≠ '-' := by
    intro hEq
    subst hEq
    have h2 : l.contains '-' = true := List.elem_iff.mpr hx
    rw [h] at h2
    cases h2
  simpa using hne

/-- Lowercasing fixes the part kept before the first dash of a lowered list. -/
theorem lowerList_takeWhile_dash (m : List Char) :
    lowerList ((lowerList m).takeWhile (fun c => decide (c ≠ '-'))) =
      (lowerList m).takeWhile (fun c => decide (c ≠ '-')) := by
  unfold lowerList
  rw [List.takeWhile_map]
  have hp : ((fun c => decide (c ≠ '-')) ∘ lowerChar) = (fun c => decide (c ≠ '-')) := by
    funext c
    simp only [Function.comp_apply, decide_eq_decide]
    exact not_congr (lowerChar_eq_dash c)
  rw [hp, List.map_map]
  have hl : (lowerChar ∘ lowerChar) = lowerChar := by
    funext c; exact lowerChar_lowerChar c
  rw [hl]

/-- Every value of the language table is a fixed point of normAux. -/
theorem normAux_fixes_vals : ∀ v ∈ langValsL, normAux v = v := by decide

/-- Every table entry has its value in the values view. -/
theorem langMapL_snd_mem : ∀ q ∈ langMapL, q.2 ∈ langValsL := by decide

/-- Idempotence of normalize_lang_code, conditional on the part before the
    first dash carrying no trailing whitespace (the unconditional statement
    is false on the code, see the counterexample below). -/
theorem normAux_idem (l : List Char)
    (H : pyStrip ((lowerList (pyStrip l)).takeWhile (fun c => decide (c ≠ '-'))) =
         (lowerList (pyStrip l)).takeWhile (fun c => decide (c ≠ '-'))) :
    normAux (normAux l) = normAux l := by
  have hdef : ∀ m : List Char, normAux m =
      if (lowerList (pyStrip m)).length = 2 ∧ (lowerList (pyStrip m)) ∈ langValsL
      then lowerList (pyStrip m) else normTail (lowerList (pyStrip m)) := fun m => rfl
  have htail : ∀ m : List Char, normTail m =
      (match langMapL.find? (fun q => decide (q.1 =
          (if m.contains '-' then m.takeWhile (fun c => decide (c ≠ '-')) else m))) with
       | some q => q.2
       | none => (if m.contains '-' then m.takeWhile (fun c => decide (c ≠ '-')) else m)) :=
    fun m => rfl
  have K := lowerStrip_idem l
  set s := lowerList (pyStrip l) with hs
  set p := s.takeWhile (fun c => decide (c ≠ '-')) with hp
  by_cases C1 : s.length = 2 ∧ s ∈ langValsL
  · have h1 : normAux l = s := by rw [hdef l, ← hs, if_pos C1]
    rw [h1, hdef s, K, if_pos C1]
  · have hpind : (if s.contains '-' then s.takeWhile (fun c => decide (c ≠ '-')) else s) = p := by
      by_cases hc : s.contains '-' = true
      · rw [if_pos hc]
      · have hc2 : s.contains '-' = false := by simpa using hc
        rw [if_neg (by rw [hc2]; exact Bool.false_ne_true), hp]
        exact (takeWhile_dash_of_not_contains s hc2).symm
    have h1 : normAux l = normTail s := by rw [hdef l, ← hs, if_neg C1]
    have h2 : normTail s = (match langMapL.find? (fun q => decide (q.1 = p)) with
       | some q => q.2
       | none => p) := by rw [htail s, hpind]
    cases hfind : langMapL.find? (fun q => decide (q.1 = p)) with
    | some q =>
      have h3 : normAux l = q.2 := by rw [h1, h2, hfind]
      have hv : q.2 ∈ langValsL := langMapL_snd_mem q (List.mem_of_find?_eq_some hfind)
      rw [h3]
      exact normAux_fixes_vals q.2 hv
    | none =>
      have h3 : normAux l = p := by rw [h1, h2, hfind]
      rw [h3]
      have hlow : lowerList p = p := by
        rw [hp, hs]
        exact lowerList_takeWhile_dash (pyStrip l)
      have hKp : lowerList (pyStrip p) = p := by rw [H, hlow]
      rw [hdef p, hKp]
      by_cases C2 : p.length = 2 ∧ p ∈ langValsL
      · rw [if_pos C2]
      · rw [if_neg C2, htail p]
        have hpc : p.contains '-' = false := by
          rw [hp]
          exact takeWhile_dash_not_contains s
        rw [if_neg (by rw [hpc]; exact Bool.false_ne_true), hfind]

/-- C7 counterexample: normalize_lang_code is not idempotent as claimed.
    On the input "a -b" the dash-split keeps the trailing space, so a first
    pass returns "a " while a second pass strips it to "a". -/
theorem claimC7_counterexample :
    normalizeLangCode (normalizeLangCode "a -b") ≠ normalizeLangCode "a -b" := by
  decide

/-- C7 (amended): normalize_lang_code is idempotent for every input whose
    part before the first dash (after strip and lowercase) carries no
    trailing whitespace; normalize("en-US") = normalize("EN") = "en"; and an
    unrecognized dash-free input is returned unchanged after strip/lowercase. -/
theorem claimC7_amended :
    (∀ x : String,
        pyStrip ((lowerList (pyStrip x.data)).takeWhile (fun c => decide (c ≠ '-'))) =
          (lowerList (pyStrip x.data)).takeWhile (fun c => decide (c ≠ '-')) →
        normalizeLangCode (normalizeLangCode x) = normalizeLangCode x)
    ∧ normalizeLangCode "en-US" = "en"
    ∧ normalizeLangCode "EN" = "en"
    ∧ (∀ x : String,
        (lowerList (pyStrip x.data)).contains '-' = false →
        ¬((lowerList (pyStrip x.data)).length = 2 ∧ lowerList (pyStrip x.data) ∈ langValsL) →
        langMapL.find? (fun q => decide (q.1 = lowerList (pyStrip x.data))) = none →
        normalizeLangCode x = String.mk (lowerList (pyStrip x.data))) := by
  refine ⟨?_, by decide, by decide, ?_⟩
  · intro x H
    have h := normAux_idem x.data H
    unfold normalizeLangCode
    rw [show (String.mk (normAux x.data)).data = normAux x.data from rfl, h]
  · intro x h1 h2 h3
    unfold normalizeLangCode
    have hdef : normAux x.data =
        if (lowerList (pyStrip x.data)).length = 2 ∧ lowerList (pyStrip x.data) ∈ langValsL
        then lowerList (pyStrip x.data) else normTail (lowerList (pyStrip x.data)) := rfl
    have htail : normTail (lowerList (pyStrip x.data)) =
        (match langMapL.find? (fun q => decide (q.1 =
            (if (lowerList (pyStrip x.data)).contains '-'
             then (lowerList (pyStrip x.data)).takeWhile (fun c => decide (c ≠ '-'))
             else lowerList (pyStrip x.data)))) with
         | some q => q.2
         | none => (if (lowerList (pyStrip x.data)).contains '-'
             then (lowerList (pyStrip x.data)).takeWhile (fun c => decide (c ≠ '-'))
             else lowerList (pyStrip x.data))) := rfl
    rw [hdef, if_neg h2, htail, if_neg (by rw [h1]; exact Bool.false_ne_true), h3]

/-- C7 witness: concrete instantiations of the amended idempotence and
    pass-through statements. -/
theorem claimC7_witness :
    normalizeLangCode (normalizeLangCode "fr-CA") = normalizeLangCode "fr-CA" ∧
    normalizeLangCode "xq" = String.mk (lowerList (pyStrip "xq".data)) :=
  ⟨claimC7_amended.1 "fr-CA" (by decide),
   claimC7_amended.2.2.2 "xq" (by decide) (by decide) (by decide)⟩

/-- C1: resolving a pair with equal source and target always yields the
    no-op strategy, for every repository world, cache state and language
    code, and translate_text short-circuits accordingly, returning its
    input text unchanged with an untouched cache. -/
theorem claimC1_same_lang_noop :
    ∀ (env : HfEnv) (cache : Cache) (x : String),
      (resolveStrategy env cache x x).1 = Strategy.noop ∧
      ∀ (e : TransEnv) (text : String),
        translateText e cache text x x = (Except.ok text, cache) := by
  intro env cache x
  constructor
  · simp [resolveStrategy]
  · intro e text
    simp [translateText]

/-- C2: strategy resolution is total (the embedding of a method whose
    probe and load exceptions are all caught): it returns one of the four
    strategy forms for every repository world, cache state and language
    pair, and Arabic-to-English always resolves to the remote fallback. -/
theorem claimC2_resolve_total :
    ∀ (env : HfEnv) (cache : Cache) (s t : String),
      ((resolveStrategy env cache s t).1 = Strategy.noop ∨
       (∃ m, (resolveStrategy env cache s t).1 = Strategy.direct m) ∨
       (∃ a b, (resolveStrategy env cache s t).1 = Strategy.pivot a b) ∨
       (resolveStrategy env cache s t).1 = Strategy.remoteFallback) ∧
      (resolveStrategy env cache "ar" "en").1 = Strategy.remoteFallback := by
  intro env cache s t
  constructor
  · cases (resolveStrategy env cache s t).1 with
    | noop => exact Or.inl rfl
    | direct m => exact Or.inr (Or.inl ⟨m, rfl⟩)
    | pivot a b => exact Or.inr (Or.inr (Or.inl ⟨a, b, rfl⟩))
    | remoteFallback => exact Or.inr (Or.inr (Or.inr rfl))
  · rfl

/-- A name returned by the direct-model loading loop is one of its
    candidates. -/
theorem tryDirect_mem (env : HfEnv) (l : List String) (m : String) (ps : List String)
    (h : tryDirect env l = (some m, ps)) : m ∈ l := by
  induction l generalizing ps with
  | nil => cases h
  | cons x rest ih =>
    unfold tryDirect at h
    by_cases hx : (env.probe x && env.loadOk x) = true
    · rw [if_pos hx] at h
      injection h with h1 h2
      injection h1 with h3
      subst h3
      exact List.mem_cons_self x rest
    · rw [if_neg hx] at h
      cases hrec : tryDirect env rest with
      | mk r qs =>
        rw [hrec] at h
        injection h with h1 h2
        rw [h1] at hrec
        exact List.mem_cons_of_mem x (ih qs hrec)

/-- Looking up an appended cache entry whose key was previously absent. -/
theorem cacheLookup_insert_of_missing (cache : Cache) (m k : String) (v : ModelInfo)
    (h : cacheLookup cache m = none) :
    cacheLookup (cacheInsert cache m v) k =
      if k = m then some v else cacheLookup cache k := by
  have hmiss : (cacheLookup cache m).isSome = false := by rw [h]; rfl
  unfold cacheInsert
  rw [if_neg (by rw [hmiss]; exact Bool.false_ne_true)]
  unfold cacheLookup
  rw [List.find?_append]
  by_cases hk : k = m
  · subst hk
    have hnone : cache.find? (fun q => decide (q.1 = k)) = none := by
      unfold cacheLookup at h
      cases hf : cache.find? (fun q => decide (q.1 = k)) with
      | none => rfl
      | some q => rw [hf] at h; cases h
    rw [hnone, if_pos rfl]
    simp [List.find?_cons]
  · rw [if_neg hk]
    have hone : List.find? (fun q => decide (q.1 = k)) [(m, v)] = none := by
      rw [List.find?_cons]
      have hd : decide ((m, v).1 = k) = false := by
        apply decide_eq_false
        intro hEq
        exact hk hEq.symm
      rw [hd]
      rfl
    rw [hone, Option.or_none]

/-- After inserting a fresh entry for one of the candidate names, the cache
    scan of get_translation_model finds exactly that entry. -/
theorem find_variants_after_insert (variants : List String) (cache : Cache)
    (m : String) (v : ModelInfo)
    (hmiss : ∀ x ∈ variants, cacheLookup cache x = none)
    (hm : m ∈ variants) :
    variants.find? (fun x => (cacheLookup (cacheInsert cache m v) x).isSome) = some m := by
  have hmnone : cacheLookup cache m = none := hmiss m hm
  induction variants with
  | nil => cases hm
  | cons x rest ih =>
    rw [List.find?_cons]
    by_cases hx : x = m
    · have hsome : cacheLookup (cacheInsert cache m v) x = some v := by
        rw [cacheLookup_insert_of_missing cache m x v hmnone, if_pos hx]
      rw [hsome, hx]
      rfl
    · have : cacheLookup (cacheInsert cache m v) x = none := by
        rw [cacheLookup_insert_of_missing cache m x v hmnone, if_neg hx]
        exact hmiss x (List.mem_cons_self x rest)
      rw [this]
      have hmr : m ∈ rest := by
        cases hm with
        | head => exact absurd rfl hx
        | tail _ h2 => exact h2
      exact ih (fun y hy => hmiss y (List.mem_cons_of_mem x hy)) hmr

/-- C3 (amended): a Direct strategy is resolved at most once per language
    pair: whenever get_translation_model returns a direct model, any later
    call on the resulting cache returns that same model from the cache,
    touching the repository with no probe at all. (A Pivot strategy does
    not enjoy this: it is stored under a key the cache scan never consults,
    so it is re-probed and re-loaded on every call, see the
    counterexample.) -/
theorem claimC3_amended (env : HfEnv) (cache c2 : Cache) (s t m : String) (ps : List String)
    (h : getTranslationModel env cache s t = (some (.direct m), c2, ps)) :
    getTranslationModel env c2 s t = (some (.direct m), c2, []) := by
  simp only [getTranslationModel] at h ⊢
  split at h
  next har => simp at h
  next har =>
    rw [if_neg har]
    split at h
    next m0 heq =>
      injection h with h1 hrest
      injection hrest with h2 h3
      subst h2
      rw [heq]
      show (cacheLookup cache m0, cache, ([] : List String)) =
        (some (ModelInfo.direct m), cache, [])
      rw [h1]
    next hnone =>
      split at h
      next m1 ps1 htd =>
        injection h with h1 hrest
        injection hrest with h2 h3
        injection h1 with h4
        injection h4 with h5
        subst h5
        subst h2
        have hmiss : ∀ x ∈ modelVariants (normalizeLangCode s) (normalizeLangCode t),
            cacheLookup cache x = none := by
          intro x hx
          have hnp := List.find?_eq_none.mp hnone x hx
          cases hcl : cacheLookup cache x with
          | none => rfl
          | some v => rw [hcl] at hnp; exact absurd rfl hnp
        have hm : m1 ∈ modelVariants (normalizeLangCode s) (normalizeLangCode t) :=
          tryDirect_mem env _ m1 ps1 htd
        have hfind := find_variants_after_insert _ cache m1 (.direct m1) hmiss hm
        rw [hfind]
        show (cacheLookup (cacheInsert cache m1 (ModelInfo.direct m1)) m1,
              cacheInsert cache m1 (ModelInfo.direct m1), ([] : List String)) =
          (some (ModelInfo.direct m1), cacheInsert cache m1 (ModelInfo.direct m1), [])
        have hlook : cacheLookup (cacheInsert cache m1 (.direct m1)) m1 =
            some (.direct m1) := by
          rw [cacheLookup_insert_of_missing cache m1 m1 _ (hmiss m1 hm), if_pos rfl]
        rw [hlook]
      next ps1 htd =>
        split at h
        · split at h
          · split at h
            · split at h
              · simp at h
              · simp at h
            · simp at h
          · simp at h
        · simp at h

/-- C3 counterexample: a Pivot strategy is not cached-effective. In a world
    where only the two French/German pivot models exist, the first
    resolution yields the Pivot strategy (and stores it under the key
    fr-de_pivot), yet the immediately repeated resolution on the resulting
    cache probes the model repository again instead of returning from the
    cache without probing, because the cache scan only consults the three
    direct-model keys. -/
theorem claimC3_counterexample :
    (resolveStrategy pivotOnlyEnv [] "fr" "de").1 =
      Strategy.pivot "Helsinki-NLP/opus-mt-fr-en" "Helsinki-NLP/opus-mt-en-de" ∧
    (resolveStrategy pivotOnlyEnv
        (resolveStrategy pivotOnlyEnv [] "fr" "de").2.1 "fr" "de").2.2 ≠ [] := by
  constructor
  · rfl
  · decide

/-- C3 witness: in a world where only the plain French-to-German direct
    model exists, the first resolution loads and caches it, and the theorem
    applied to that call shows the second resolution is answered from the
    cache with no probes. -/
theorem claimC3_witness :
    getTranslationModel directOnlyEnv directOnlyCache "fr" "de" =
      (some (ModelInfo.direct "Helsinki-NLP/opus-mt-fr-de"), directOnlyCache, []) :=
  claimC3_amended directOnlyEnv [] directOnlyCache "fr" "de"
    "Helsinki-NLP/opus-mt-fr-de" ["Helsinki-NLP/opus-mt-fr-de"] (by decide)

/-- Unfolding of _process_subtitles on a segment whose translation
    succeeds. -/
theorem processSubtitles_cons_ok (e : TransEnv) (s t : String) (cache : Cache)
    (sub : Segment) (rest : List Segment) (tr : String) (c : Cache)
    (h : translateText e cache sub.text s t = (.ok tr, c)) :
    processSubtitles e s t cache (sub :: rest) =
      ({start := sub.start, stop := sub.stop, text := tr} ::
        (processSubtitles e s t c rest).1,
       (processSubtitles e s t c rest).2) := by
  conv_lhs => unfold processSubtitles
  rw [h]

/-- Unfolding of _process_subtitles on a segment whose translation raises:
    the original segment is kept. -/
theorem processSubtitles_cons_err (e : TransEnv) (s t : String) (cache : Cache)
    (sub : Segment) (rest : List Segment) (err : Err) (c : Cache)
    (h : translateText e cache sub.text s t = (.error err, c)) :
    processSubtitles e s t cache (sub :: rest) =
      (sub :: (processSubtitles e s t c rest).1,
       (processSubtitles e s t c rest).2) := by
  conv_lhs => unfold processSubtitles
  rw [h]

/-- Unfolding of _process_subtitles on the empty batch. -/
theorem processSubtitles_nil (e : TransEnv) (s t : String) (cache : Cache) :
    processSubtitles e s t cache [] = ([], cache) := rfl

/-- The translation stage preserves the start offset of every segment. -/
theorem processSubtitles_map_start (e : TransEnv) (s t : String) :
    ∀ (subs : List Segment) (cache : Cache),
      (processSubtitles e s t cache subs).1.map Segment.start = subs.map Segment.start := by
  intro subs
  induction subs with
  | nil => intro cache; rfl
  | cons sub rest ih =>
    intro cache
    cases htr : translateText e cache sub.text s t with
    | mk r c =>
      cases r with
      | ok tr =>
        rw [processSubtitles_cons_ok e s t cache sub rest tr c htr]
        simp only [List.map_cons]
        rw [ih c]
      | error err =>
        rw [processSubtitles_cons_err e s t cache sub rest err c htr]
        simp only [List.map_cons]
        rw [ih c]

/-- The translation stage preserves the end offset of every segment. -/
theorem processSubtitles_map_stop (e : TransEnv) (s t : String) :
    ∀ (subs : List Segment) (cache : Cache),
      (processSubtitles e s t cache subs).1.map Segment.stop = subs.map Segment.stop := by
  intro subs
  induction subs with
  | nil => intro cache; rfl
  | cons sub rest ih =>
    intro cache
    cases htr : translateText e cache sub.text s t with
    | mk r c =>
      cases r with
      | ok tr =>
        rw [processSubtitles_cons_ok e s t cache sub rest tr c htr]
        simp only [List.map_cons]
        rw [ih c]
      | error err =>
        rw [processSubtitles_cons_err e s t cache sub rest err c htr]
        simp only [List.map_cons]
        rw [ih c]

/-- The translation stage returns as many segments as it was given. -/
theorem processSubtitles_length (e : TransEnv) (s t : String) :
    ∀ (subs : List Segment) (cache : Cache),
      (processSubtitles e s t cache subs).1.length = subs.length := by
  intro subs
  induction subs with
  | nil => intro cache; rfl
  | cons sub rest ih =>
    intro cache
    cases htr : translateText e cache sub.text s t with
    | mk r c =>
      cases r with
      | ok tr =>
        rw [processSubtitles_cons_ok e s t cache sub rest tr c htr]
        simp only [List.length_cons]
        rw [ih c]
      | error err =>
        rw [processSubtitles_cons_err e s t cache sub rest err c htr]
        simp only [List.length_cons]
        rw [ih c]

/-- When translating segment i raises (at the cache state reached after the
    first i segments), the output keeps the original segment at position i. -/
theorem processSubtitles_keep_of_err (e : TransEnv) (s t : String) :
    ∀ (subs : List Segment) (cache : Cache) (i : Nat) (hi : i < subs.length),
      (translateText e (processSubtitles e s t cache (List.take i subs)).2
          (subs[i]).text s t).1.isOk = false →
      (processSubtitles e s t cache subs).1[i]? = some (subs[i]) := by
  intro subs
  induction subs with
  | nil => intro cache i hi; exact absurd hi (Nat.not_lt_zero i)
  | cons sub rest ih =>
    intro cache i hi herr
    cases i with
    | zero =>
      simp only [List.take_zero, processSubtitles_nil, List.getElem_cons_zero] at herr
      cases htr : translateText e cache sub.text s t with
      | mk r c =>
        cases r with
        | ok tr =>
          rw [htr] at herr
          exact Bool.noConfusion (show true = false from herr)
        | error err =>
          rw [processSubtitles_cons_err e s t cache sub rest err c htr]
          simp
    | succ j =>
      have hj : j < rest.length := Nat.lt_of_succ_lt_succ hi
      cases htr : translateText e cache sub.text s t with
      | mk r c =>
        have hstate : (processSubtitles e s t cache (List.take (j + 1) (sub :: rest))).2 =
            (processSubtitles e s t c (List.take j rest)).2 := by
          rw [List.take_succ_cons]
          cases r with
          | ok tr => rw [processSubtitles_cons_ok e s t cache sub (List.take j rest) tr c htr]
          | error err => rw [processSubtitles_cons_err e s t cache sub (List.take j rest) err c htr]
        rw [hstate, List.getElem_cons_succ] at herr
        rw [List.getElem_cons_succ]
        cases r with
        | ok tr =>
          rw [processSubtitles_cons_ok e s t cache sub rest tr c htr]
          rw [List.getElem?_cons_succ]
          exact ih c j hj herr
        | error err =>
          rw [processSubtitles_cons_err e s t cache sub rest err c htr]
          rw [List.getElem?_cons_succ]
          exact ih c j hj herr

/-- C4: the translation stage returns one output segment per input segment,
    in order, and whenever translating segment i raises (at the cache state
    reached after the first i segments), the output at position i carries
    the original text of input segment i. -/
theorem claimC4_per_segment_isolation :
    ∀ (e : TransEnv) (s t : String) (cache : Cache) (subs : List Segment),
      (processSubtitles e s t cache subs).1.length = subs.length ∧
      ∀ (i : Nat) (hi : i < subs.length),
        (translateText e (processSubtitles e s t cache (List.take i subs)).2
            (subs[i]).text s t).1.isOk = false →
        ((processSubtitles e s t cache subs).1[i]?.map Segment.text) =
          some ((subs[i]).text) := by
  intro e s t cache subs
  refine ⟨processSubtitles_length e s t subs cache, ?_⟩
  intro i hi herr
  rw [processSubtitles_keep_of_err e s t subs cache i hi herr]
  rfl

/-- C4 witness: a one-segment batch in a world where every translation
    raises keeps its length and its original text. -/
theorem claimC4_witness :
    (processSubtitles failingTransEnv "es" "en" []
        [{start := 0, stop := 2, text := "Hola"}]).1.length = 1 ∧
    ((processSubtitles failingTransEnv "es" "en" []
        [{start := 0, stop := 2, text := "Hola"}]).1[0]?.map Segment.text) =
      some "Hola" := by
  have h := claimC4_per_segment_isolation failingTransEnv "es" "en" []
    [{start := 0, stop := 2, text := "Hola"}]
  exact ⟨h.1, h.2 0 (by decide) (by decide)⟩

/-- C10: the translation stage preserves segment timing exactly: the lists
    of start offsets and of end offsets of the output equal those of the
    input, for every environment, cache and batch, whether each translation
    succeeds or fails. -/
theorem claimC10_timing_preserved :
    ∀ (e : TransEnv) (s t : String) (cache : Cache) (subs : List Segment),
      (processSubtitles e s t cache subs).1.map Segment.start = subs.map Segment.start ∧
      (processSubtitles e s t cache subs).1.map Segment.stop = subs.map Segment.stop :=
  fun e s t cache subs =>
    ⟨processSubtitles_map_start e s t subs cache,
     processSubtitles_map_stop e s t subs cache⟩

/-- C5 counterexample: the remote-fallback translation path can raise.
    When the client is not yet initialized and no api key is available,
    ensure_initialized runs outside the try block of
    _translate_with_groq_fallback and its ValueError propagates, so the
    call does not return the original text. -/
theorem claimC5_counterexample :
    translateWithGroqFallback
      { clientSet := false, apiKey := none, clientInitOk := false,
        remote := fun _ _ => some "x" } "hello" "fr" "de" =
      .error (.valueError "GROQ_API_KEY not found") := rfl

/-- C5 (amended): provided client initialization succeeds (client already
    set, or an api key is present and construction succeeds), the remote
    fallback never raises: an error while invoking the remote service
    returns the original input text unchanged, and a successful response is
    returned verbatim, stripped. -/
theorem claimC5_amended :
    ∀ (e : GroqEnv) (text s t : String),
      (ensureInitialized e).isOk = true →
      ((e.remote (groqSystemPrompt s t) text = none →
         translateWithGroqFallback e text s t = .ok text) ∧
       (∀ r, e.remote (groqSystemPrompt s t) text = some r →
         translateWithGroqFallback e text s t = .ok (pyStripStr r))) := by
  intro e text s t hinit
  cases hE : ensureInitialized e with
  | error err =>
    rw [hE] at hinit
    exact Bool.noConfusion (show false = true from hinit)
  | ok u =>
    constructor
    · intro hr
      unfold translateWithGroqFallback
      rw [hE, hr]
    · intro r hr
      unfold translateWithGroqFallback
      rw [hE, hr]

/-- C5 witness: with an initialized client, a padded remote answer comes
    back stripped and a throwing remote call returns the original text. -/
theorem claimC5_witness :
    translateWithGroqFallback workingGroqEnv "bonjour" "fr" "de" =
      .ok (pyStripStr "  hi  ") ∧
    translateWithGroqFallback downRemoteGroqEnv "bonjour" "fr" "de" = .ok "bonjour" :=
  ⟨(claimC5_amended workingGroqEnv "bonjour" "fr" "de" (by decide)).2 "  hi  " rfl,
   (claimC5_amended downRemoteGroqEnv "bonjour" "fr" "de" (by decide)).1 rfl⟩

/-- The validation loop is the filter-then-convert of the kept-segment
    characterization: a raw segment survives exactly when it has all three
    fields, its end exceeds its start and its stripped text is non-empty. -/
theorem validSegments_eq_filter_map (l : List RawSegment) :
    validSegments l =
      (l.filter (fun g =>
          g.start?.isSome && g.stop?.isSome && g.text?.isSome &&
          decide (g.stop?.getD 0 > g.start?.getD 0) &&
          decide (pyStripStr (g.text?.getD "") ≠ ""))).map
        (fun g => {start := g.start?.getD 0, stop := g.stop?.getD 0,
                   text := pyStripStr (g.text?.getD "")}) := by
  induction l with
  | nil => rfl
  | cons g rest ih =>
    cases hs : g.start? with
    | none =>
      simp only [validSegments, hs, List.filter_cons, Option.isSome_none,
        Bool.false_and, Bool.and_false, if_neg (by simp : ¬(false = true))]
      exact ih
    | some st =>
      cases he : g.stop? with
      | none =>
        simp only [validSegments, hs, he, List.filter_cons, Option.isSome_none,
          Option.isSome_some, Bool.true_and, Bool.false_and, Bool.and_false,
          if_neg (by simp : ¬(false = true))]
        exact ih
      | some en =>
        cases ht : g.text? with
        | none =>
          simp only [validSegments, hs, he, ht, List.filter_cons, Option.isSome_none,
            Option.isSome_some, Bool.true_and, Bool.false_and, Bool.and_false,
            if_neg (by simp : ¬(false = true))]
          exact ih
        | some tx =>
          simp only [validSegments, hs, he, ht, List.filter_cons, Option.isSome_some,
            Bool.true_and, Option.getD_some]
          by_cases hc : en > st ∧ pyStripStr tx ≠ ""
          · rw [if_pos hc]
            have hb : (decide (en > st) && decide (pyStripStr tx ≠ "")) = true := by
              rw [decide_eq_true hc.1, decide_eq_true hc.2]
              rfl
            rw [hb, if_pos rfl, List.map_cons, ih]
            simp only [hs, he, ht, Option.getD_some]
          · rw [if_neg hc]
            have hb : (decide (en > st) && decide (pyStripStr tx ≠ "")) = false := by
              rcases Decidable.not_and_iff_or_not.mp hc with h1 | h1
              · rw [decide_eq_false h1, Bool.false_and]
              · rw [decide_eq_false h1, Bool.and_false]
            rw [hb, if_neg (by simp : ¬(false = true))]
            exact ih

/-- C6: the transcription stage never throws. When the external call
    (fallback included) fails, it returns an empty segment list with the
    source-language argument as detected language; when the call answers,
    the produced segments are exactly the raw segments that carry all of
    start, end and text, with end greater than start and non-empty stripped
    text, in order, converted with their text stripped. -/
theorem claimC6_transcription_robust :
    ∀ (env : SpeechEnv) (sourceLang targetLang : String),
      (effectiveResponse env sourceLang targetLang = none →
        transcribeWithGroq env sourceLang targetLang =
          {segments := [], detectedLanguage := sourceLang, sampleText := ""}) ∧
      (∀ resp, effectiveResponse env sourceLang targetLang = some resp →
        (transcribeWithGroq env sourceLang targetLang).segments =
          (resp.segments.filter (fun g =>
              g.start?.isSome && g.stop?.isSome && g.text?.isSome &&
              decide (g.stop?.getD 0 > g.start?.getD 0) &&
              decide (pyStripStr (g.text?.getD "") ≠ ""))).map
            (fun g => {start := g.start?.getD 0, stop := g.stop?.getD 0,
                       text := pyStripStr (g.text?.getD "")})) := by
  intro env s t
  constructor
  · intro h
    unfold transcribeWithGroq
    rw [h]
  · intro resp h
    unfold transcribeWithGroq
    rw [h]
    exact validSegments_eq_filter_map resp.segments

/-- C6 witness: a failing speech world yields the empty result carrying the
    source language, and the sample response keeps only its single valid
    segment (stripped). -/
theorem claimC6_witness :
    transcribeWithGroq downSpeechEnv "fr" "de" =
      {segments := [], detectedLanguage := "fr", sampleText := ""} ∧
    (transcribeWithGroq sampleSpeechEnv "fr" "fr").segments =
      (sampleRawResponse.segments.filter (fun g =>
          g.start?.isSome && g.stop?.isSome && g.text?.isSome &&
          decide (g.stop?.getD 0 > g.start?.getD 0) &&
          decide (pyStripStr (g.text?.getD "") ≠ ""))).map
        (fun g => {start := g.start?.getD 0, stop := g.stop?.getD 0,
                   text := pyStripStr (g.text?.getD "")}) :=
  ⟨(claimC6_transcription_robust downSpeechEnv "fr" "de").1 rfl,
   (claimC6_transcription_robust sampleSpeechEnv "fr" "fr").2 sampleRawResponse rfl⟩

/-- C8: the layout engine classifies a video as vertical exactly when its
    width-to-height ratio is below 0.6 and then answers one maximum line,
    otherwise two; and on the erroring input (height zero, a division by
    zero) it returns the fixed safe default tuple instead of raising. -/
theorem claimC8_layout :
    ∀ (width height : ℤ) (userFontSize : Option ℤ),
      (height = 0 →
        calculateSubtitleProperties width height userFontSize = (24, 2, 20, 28, 50, 40)) ∧
      (height ≠ 0 →
        (calculateSubtitleProperties width height userFontSize).2.1 =
          if (width : ℚ) / (height : ℚ) < 3 / 5 then 1 else 2) := by
  intro w h u
  constructor
  · intro h0
    unfold calculateSubtitleProperties
    rw [if_pos h0]
  · intro hne
    simp only [calculateSubtitleProperties]
    rw [if_neg hne]
    split_ifs with hv <;> rfl

/-- C8 witness: a 1080 by 1920 portrait video gets one line, a 1920 by 1080
    landscape video gets two, and height zero yields the default tuple. -/
theorem claimC8_witness :
    (calculateSubtitleProperties 1080 1920 none).2.1 = 1 ∧
    (calculateSubtitleProperties 1920 1080 none).2.1 = 2 ∧
    calculateSubtitleProperties 640 0 (some 30) = (24, 2, 20, 28, 50, 40) := by
  refine ⟨?_, ?_, (claimC8_layout 640 0 (some 30)).1 rfl⟩
  · have h := (claimC8_layout 1080 1920 none).2 (by decide)
    rw [h, if_pos (by norm_num)]
  · have h := (claimC8_layout 1920 1080 none).2 (by decide)
    rw [h, if_neg (by norm_num)]

/-- C9: when the pipeline has no pre-edited segments and transcription
    yields zero valid segments, the run terminates in failure: a failed
    status carrying the error message is persisted for the video id, the
    last emitted progress event is the terminal Error event with progress
    -1, the ValueError is re-raised to the caller, no output is persisted,
    and the temporary audio file (created, still present, removable) is
    deleted regardless. -/
theorem claimC9_zero_segments_failure :
    ∀ (env : OrchEnv) (targetLang audioPath : String),
      env.existingSegments = [] →
      (ensureInitialized env.trans.groq).isOk = true →
      env.extractAudio = .ok audioPath →
      (transcribeWithGroq env.speech env.detectedLang targetLang).segments = [] →
      env.videoId ≠ "" →
      env.audioFileExists = true →
      env.removeOk = true →
      (processVideoStream env targetLang).statusUpdates =
          [(env.videoId, "failed", "No valid subtitles generated", -1)] ∧
      (processVideoStream env targetLang).events.getLast? =
          some (sendProgress "Error" (-1)) ∧
      (processVideoStream env targetLang).outcome =
          .error (.valueError "No valid subtitles generated") ∧
      (processVideoStream env targetLang).audioRemoved = true ∧
      (processVideoStream env targetLang).outputUpdates = [] := by
  intro env t ap h1 h2 h3 h4 h5 h6 h7
  have hbody : runPipelineBody env t =
      ([sendProgress "Initializing" 0, sendProgress "Extracting audio" 10,
        sendProgress "Extracting audio" 30, sendProgress "Detecting language" 35,
        sendProgress "Detecting language" 40, sendProgress "Transcribing" 45],
       [], .error (.valueError "No valid subtitles generated"), true) := by
    unfold runPipelineBody
    cases hE : ensureInitialized env.trans.groq with
    | error err =>
      rw [hE] at h2
      exact Bool.noConfusion (show false = true from h2)
    | ok u =>
      simp [h1, h3, h4]
  unfold processVideoStream
  rw [hbody]
  refine ⟨?_, ?_, ?_, ?_, ?_⟩
  · show (if env.videoId ≠ "" then
        [(env.videoId, "failed", Err.message (.valueError "No valid subtitles generated"), -1)]
      else []) = [(env.videoId, "failed", "No valid subtitles generated", -1)]
    rw [if_pos h5]
    rfl
  · rfl
  · rfl
  · show (true && env.audioFileExists && env.removeOk) = true
    rw [h6, h7]
    rfl
  · rfl

/-- C9 witness: a concrete run with a down speech service persists the
    failed status, ends its event stream with the -1 Error event, re-raises
    the ValueError, removes the temp audio file and persists no output. -/
theorem claimC9_witness :
    (processVideoStream zeroSegOrchEnv "de").statusUpdates =
        [("65b000000000000000000001", "failed", "No valid subtitles generated", -1)] ∧
    (processVideoStream zeroSegOrchEnv "de").events.getLast? =
        some (sendProgress "Error" (-1)) ∧
    (processVideoStream zeroSegOrchEnv "de").outcome =
        .error (.valueError "No valid subtitles generated") ∧
    (processVideoStream zeroSegOrchEnv "de").audioRemoved = true ∧
    (processVideoStream zeroSegOrchEnv "de").outputUpdates = [] :=
  claimC9_zero_segments_failure zeroSegOrchEnv "de" "audio.wav"
    rfl rfl rfl rfl (by decide) rfl rfl
